import Mathlib

/-!
Verification of the YouTube transcript downloader (src/main.py) against its
natural-language specification.

The embedding works on `List Char` (Python strings are sequences of code
points).  The two regular expressions of `extract_video_id` are embedded as
explicit leftmost-match scanners, the inline filename sanitization as a
character filter, the title scraping of `get_video_title` as a scanner plus
a Python-style `str.replace` / `str.strip`, and the orchestrator
`download_transcript` as a function from its collaborators (title lookup,
transcript retrieval, file write) to an `Except`-valued result paired with
the trace of collaborator invocations.  The JSON formatter of the external
`youtube_transcript_api` package is modelled from the spec.
-/

/-- Boolean test for membership in the identifier alphabet `[0-9A-Za-z_-]`
of the regular expressions in `extract_video_id` (src/main.py lines 118, 123). -/
def idChar (c : Char) : Bool :=
  ('0' ≤ c && c ≤ '9') || ('A' ≤ c && c ≤ 'Z') || ('a' ≤ c && c ≤ 'z') || c = '_' || c = '-'

/-- `startsWithL pat cs` is true when `pat` is an initial segment of `cs`. -/
def startsWithL : List Char → List Char → Bool
  | [], _ => true
  | _ :: _, [] => false
  | p :: ps, c :: cs => p == c && startsWithL ps cs

/-- The `[0-9A-Za-z_-]\x7b11\x7d` part of both regexes: consume exactly 11
identifier-alphabet characters, or fail. -/
def grab11 (cs : List Char) : Option (List Char) :=
  if (cs.take 11).length = 11 && (cs.take 11).all idChar then some (cs.take 11) else none

/-- One attempted match of the first regex `(?:v=|\/)([0-9A-Za-z_-]\x7b11\x7d)`
(src/main.py line 118) at the start of `cs`; returns the captured group.
The alternation tries `v=` first, then `/`, as in the pattern. -/
def matchAt1 (cs : List Char) : Option (List Char) :=
  if startsWithL ['v', '='] cs then grab11 (cs.drop 2)
  else if startsWithL ['/'] cs then grab11 (cs.drop 1)
  else none

/-- One attempted match of the second regex `youtu\.be\/([0-9A-Za-z_-]\x7b11\x7d)`
(src/main.py line 123) at the start of `cs`; returns the captured group. -/
def matchAt2 (cs : List Char) : Option (List Char) :=
  if startsWithL (("youtu.be/").data) cs then grab11 (cs.drop 9) else none

/-- Python `re.search`: try the matcher at every position from the left and
return the first (leftmost) successful match. -/
def reSearch (m : List Char → Option (List Char)) : List Char → Option (List Char)
  | [] => m []
  | c :: rest =>
    match m (c :: rest) with
    | some t => some t
    | none => reSearch m rest

/-- Embedding of `extract_video_id` (src/main.py lines 107-127): search the
first regex, then the short-link regex, returning the first captured group
found, and `none` if neither pattern matches. -/
def extract_video_id (url : String) : Option String :=
  match reSearch matchAt1 url.data with
  | some t => some (String.mk t)
  | none =>
    match reSearch matchAt2 url.data with
    | some t => some (String.mk t)
    | none => none

/-- A variant of `extract_video_id` that consults only the first regex;
used to state the redundancy of the short-link fallback. -/
def extract_video_id_first_only (url : String) : Option String :=
  match reSearch matchAt1 url.data with
  | some t => some (String.mk t)
  | none => none

/-- The character class of `re.sub` applied in src/main.py lines 88-89:
`[\\/*?:"<>|]`. -/
def badChar (c : Char) : Bool :=
  c = '\\' || c = '/' || c = '*' || c = '?' || c = ':' || c = '"' || c = '<' || c = '>' || c = '|'

/-- Embedding of `re.sub(r'[\\/*?:"<>|]', "", s)` (src/main.py lines 88-89):
delete every occurrence of a character of the class. -/
def sanitize (s : String) : String :=
  String.mk (s.data.filter (fun c => !(badChar c)))

/-- Embedding of the f-string of src/main.py line 92:
`f"\x7bsanitized_title\x7d - \x7bsanitized_id\x7d.\x7boutput_extension\x7d"`
applied to the sanitized title and id. -/
def build_filename (title vid ext : String) : String :=
  sanitize title ++ " - " ++ sanitize vid ++ "." ++ ext

/-- Embedding of `os.path.join(output_dir, filename)` (src/main.py line 93),
POSIX semantics. -/
def pathJoin (a b : String) : String :=
  if startsWithL ['/'] b.data then b
  else if a.data = [] then a ++ b
  else if (match a.data.getLast? with | some '/' => true | _ => false) then a ++ b
  else a ++ "/" ++ b

/-- ASCII lowercasing of one character, as Python `str.lower` acts on the
ASCII range (the only range compared against in src/main.py lines 67-73). -/
def lowerChar (c : Char) : Char :=
  if 'A' ≤ c && c ≤ 'Z' then Char.ofNat (c.toNat + 32) else c

/-- Embedding of `output_format.lower()` (src/main.py lines 67, 70, 73). -/
def pyLower (s : String) : String :=
  String.mk (s.data.map lowerChar)

/-- The three formatter kinds with an implemented branch in
src/main.py lines 67-75. -/
inductive FormatKind
  | json
  | text
  | srt
deriving DecidableEq

/-- Embedding of the format-selection chain of src/main.py lines 67-80:
compare `output_format.lower()` against `"json"`, `"text"`, `"srt"` in order,
yielding the formatter kind and the file extension, or `none` for the
invalid-format branch. -/
def formatterFor (fmt : String) : Option (FormatKind × String) :=
  if pyLower fmt = "json" then some (FormatKind.json, "json")
  else if pyLower fmt = "text" then some (FormatKind.text, "txt")
  else if pyLower fmt = "srt" then some (FormatKind.srt, "srt")
  else none

/-- A timed caption cue (text, start offset, duration), the element type of
the transcript returned by the transcript collaborator. -/
structure Cue where
  text : String
  start : Nat
  duration : Nat
deriving DecidableEq

/-- The three exception kinds distinguished by src/main.py lines 54-64. -/
inductive TranscriptErr
  | disabled
  | noTranscriptFound
  | other
deriving DecidableEq

/-- Outcomes of the two network collaborators and of the file write, supplied
to the orchestrator: `titleResult` is what `get_video_title` does
(`Except.error` = raises, `Except.ok none` = returns `None`), `transcriptResult`
is what `YouTubeTranscriptApi.get_transcript` does, and `writeOk` is whether
the filesystem steps succeed. -/
structure Collab where
  titleResult : Except String (Option String)
  transcriptResult : Except TranscriptErr (List Cue)
  writeOk : Bool

/-- Collaborator invocations observable from outside the orchestrator. -/
inductive Ev
  | titleCall
  | transcriptCall
deriving DecidableEq

/-- Exceptions that may escape the body of `download_transcript` and are
caught by its outermost `try`/`except` (src/main.py lines 30, 102-104). -/
inductive PyExc
  | oserror
deriving DecidableEq

/-- Embedding of src/main.py lines 38-47: the title used downstream is the
collaborator's title, except that a raised exception, a `None` title or a
falsy (empty) title falls back to the video id. -/
def resolvedTitle (vid : String) (r : Except String (Option String)) : String :=
  match r with
  | Except.error _ => vid
  | Except.ok none => vid
  | Except.ok (some t) => if t = "" then vid else t

/-- Embedding of the body of `download_transcript` (src/main.py lines 30-100),
without the outermost exception handler: returns the value returned (or the
exception raised) together with the trace of collaborator calls made. -/
def download_transcript_body (url outputDir _lang outputFormat : String) (c : Collab) :
    Except PyExc (Option String) × List Ev :=
  match extract_video_id url with
  | none => (Except.ok none, [])
  | some vid =>
    let videoTitle := resolvedTitle vid c.titleResult
    match c.transcriptResult with
    | Except.error _ => (Except.ok none, [Ev.titleCall, Ev.transcriptCall])
    | Except.ok _ =>
      match formatterFor outputFormat with
      | none => (Except.ok none, [Ev.titleCall, Ev.transcriptCall])
      | some (_, ext) =>
        if c.writeOk then
          (Except.ok (some (pathJoin outputDir (build_filename videoTitle vid ext))),
            [Ev.titleCall, Ev.transcriptCall])
        else
          (Except.error PyExc.oserror, [Ev.titleCall, Ev.transcriptCall])

/-- Embedding of `download_transcript` (src/main.py lines 15-104): the body
wrapped in the outermost `try`/`except Exception` which converts any escaped
exception into the `None` return of line 104.  The `lang` argument only
parametrizes the transcript collaborator and is otherwise unused, as in the
source. -/
def download_transcript (url outputDir lang outputFormat : String) (c : Collab) :
    Except PyExc (Option String) × List Ev :=
  let r := download_transcript_body url outputDir lang outputFormat c
  match r.1 with
  | Except.error _ => (Except.ok none, r.2)
  | Except.ok v => (Except.ok v, r.2)

/-- The value `download_transcript` hands to its caller for one URL. -/
def dtResult (url outputDir lang outputFormat : String) (c : Collab) : Option String :=
  match (download_transcript url outputDir lang outputFormat c).1 with
  | Except.ok v => v
  | Except.error _ => none

/-- Embedding of the batch loop of `main` (src/main.py lines 203-204): process
the URLs in order; an exception escaping `download_transcript` would abort the
whole loop (modelled by the propagating `Except.error`). -/
def processURLs (jobs : List (String × Collab)) (outputDir lang outputFormat : String) :
    Except PyExc (List (Option String)) :=
  match jobs with
  | [] => Except.ok []
  | (u, c) :: rest =>
    match (download_transcript u outputDir lang outputFormat c).1 with
    | Except.error e => Except.error e
    | Except.ok v =>
      match processURLs rest outputDir lang outputFormat with
      | Except.error e => Except.error e
      | Except.ok vs => Except.ok (v :: vs)

/-- The lazy group `(.*?)` of the regex `<title>(.*?)</title>`
(src/main.py lines 159-161): the shortest run of non-newline characters
after which `</title>` follows; `none` when no such run exists. -/
def contentTo : List Char → Option (List Char)
  | [] => none
  | c :: rest =>
    if startsWithL (("</title>").data) (c :: rest) then some []
    else if c = '\n' then none
    else
      match contentTo rest with
      | none => none
      | some s => some (c :: s)

/-- One attempted match of `<title>(.*?)</title>` at the start of `cs`,
returning the captured group. -/
def matchTitleAt (cs : List Char) : Option (List Char) :=
  if startsWithL (("<title>").data) cs then contentTo (cs.drop 7) else none

/-- Python `str.replace(" - YouTube", "")` (src/main.py line 163): delete
every (leftmost-first, non-overlapping) occurrence of the ten-character
pattern. -/
def replaceYT : List Char → List Char
  | ' ' :: '-' :: ' ' :: 'Y' :: 'o' :: 'u' :: 'T' :: 'u' :: 'b' :: 'e' :: rest => replaceYT rest
  | c :: rest => c :: replaceYT rest
  | [] => []

/-- The whitespace class of Python `str.strip` (ASCII part). -/
def pyIsSpace (c : Char) : Bool :=
  c = ' ' || c = '\t' || c = '\n' || c = '\r' || c = Char.ofNat 11 || c = Char.ofNat 12

/-- Python `str.strip()` (src/main.py line 164). -/
def pyStrip (s : List Char) : List Char :=
  ((s.dropWhile pyIsSpace).reverse.dropWhile pyIsSpace).reverse

/-- Embedding of the response-body part of `get_video_title`
(src/main.py lines 159-166): search for the title element, and on a match
apply `.replace(" - YouTube", "")` and `.strip()` to the captured group. -/
def title_from_html (html : String) : Option String :=
  match reSearch matchTitleAt html.data with
  | some content => some (String.mk (pyStrip (replaceYT content)))
  | none => none

/-- `endsWithL pat cs` is true when `pat` is a final segment of `cs`. -/
def endsWithL (pat cs : List Char) : Bool :=
  startsWithL pat.reverse cs.reverse

/-- The title transformation as the spec describes it, for comparison with
the code: remove `" - YouTube"` only when it is a trailing suffix of the
captured content, then strip surrounding whitespace. -/
def spec_title_of_content (content : List Char) : List Char :=
  pyStrip (if endsWithL ((" - YouTube").data) content then content.take (content.length - 10)
    else content)

/-- Escaping of one character inside a serialized string literal. -/
def escChar (c : Char) : List Char :=
  if c = '"' then ['\\', '"']
  else if c = '\\' then ['\\', '\\']
  else if c = '\n' then ['\\', 'n']
  else if c = '\t' then ['\\', 't']
  else if c = '\r' then ['\\', 'r']
  else [c]

/-- The inverse table of `escChar` for the character after a backslash. -/
def unescChar (d : Char) : Option Char :=
  if d = '"' then some '"'
  else if d = '\\' then some '\\'
  else if d = 'n' then some '\n'
  else if d = 't' then some '\t'
  else if d = 'r' then some '\r'
  else none

/-- Escape a whole string body. -/
def escapeStr : List Char → List Char
  | [] => []
  | c :: rest => escChar c ++ escapeStr rest

/-- Modelled from the spec: serialization of a string as a quoted,
escaped string literal of the structured (`json`) output format produced by
the external `JSONFormatter.format_transcript`, which is not part of this
repository. -/
def renderString (s : List Char) : List Char :=
  '"' :: (escapeStr s ++ ['"'])

/-- Decimal digit character of a value below ten. -/
def digitChar (n : Nat) : Char :=
  if n = 0 then '0' else if n = 1 then '1' else if n = 2 then '2' else if n = 3 then '3'
  else if n = 4 then '4' else if n = 5 then '5' else if n = 6 then '6' else if n = 7 then '7'
  else if n = 8 then '8' else '9'

/-- Numeric value of a decimal digit character. -/
def digitVal (c : Char) : Nat :=
  if c = '0' then 0 else if c = '1' then 1 else if c = '2' then 2 else if c = '3' then 3
  else if c = '4' then 4 else if c = '5' then 5 else if c = '6' then 6 else if c = '7' then 7
  else if c = '8' then 8 else 9

/-- Boolean test for a decimal digit character. -/
def isDigitC (c : Char) : Bool :=
  c = '0' || c = '1' || c = '2' || c = '3' || c = '4' || c = '5' || c = '6' || c = '7' ||
    c = '8' || c = '9'

/-- Fuel-driven most-significant-first decimal rendering. -/
def natToDigitsAux (fuel : Nat) (n : Nat) : List Char :=
  match fuel with
  | 0 => []
  | f + 1 => if n < 10 then [digitChar n] else natToDigitsAux f (n / 10) ++ [digitChar (n % 10)]

/-- Modelled from the spec: decimal rendering of a numeric field of a cue in
the structured output format. -/
def natToDigits (n : Nat) : List Char :=
  natToDigitsAux (n + 1) n

/-- The object-opening literal `\x7b"text": ` of the serialized cue. -/
def litText : List Char := ("\x7b\"text\": ").data

/-- The literal `, "start": ` of the serialized cue. -/
def litStart : List Char := (", \"start\": ").data

/-- The literal `, "duration": ` of the serialized cue. -/
def litDuration : List Char := (", \"duration\": ").data

/-- Modelled from the spec: serialization of one cue as a structured-data
object with the fields `text`, `start` and `duration`, in the layout
`json.dumps` gives it. -/
def renderCue (c : Cue) : List Char :=
  litText ++ renderString c.text.data ++ litStart ++ natToDigits c.start ++ litDuration ++
    natToDigits c.duration ++ ['\x7d']

/-- Continuation of the serialized cue array after one cue: either the
closing bracket or a separator and a further cue. -/
def renderCuesTail : List Cue → List Char
  | [] => [']']
  | c :: rest => ',' :: ' ' :: (renderCue c ++ renderCuesTail rest)

/-- Modelled from the spec: the full structured serialization of a cue
sequence (a `json.dumps` array). -/
def renderCues (cs : List Cue) : List Char :=
  match cs with
  | [] => ['[', ']']
  | c :: rest => '[' :: (renderCue c ++ renderCuesTail rest)

/-- Modelled from the spec: `JSONFormatter().format_transcript(transcript)`
of src/main.py lines 68 and 82 — the external formatter is not part of this
repository; the spec describes it as the lossless structured serialization
of the cue sequence. -/
def JSONFormatter_format (cues : List Cue) : String :=
  String.mk (renderCues cues)

/-- Generic string-literal parsing after the opening quote: unescape until
the closing quote, returning the body and the remaining input. -/
def parseStringBody : List Char → Option (List Char × List Char)
  | [] => none
  | [c] => if c = '"' then some ([], []) else none
  | c :: d :: rest =>
    if c = '"' then some ([], d :: rest)
    else if c = '\\' then
      match unescChar d with
      | none => none
      | some u =>
        match parseStringBody rest with
        | none => none
        | some (s, r) => some (u :: s, r)
    else
      match parseStringBody (d :: rest) with
      | none => none
      | some (s, r) => some (c :: s, r)

/-- Generic string-literal parsing including the opening quote. -/
def parseStringJ (cs : List Char) : Option (List Char × List Char) :=
  match cs with
  | [] => none
  | c :: rest => if c = '"' then parseStringBody rest else none

/-- Greedy decimal accumulation. -/
def parseNatAux (acc : Nat) : List Char → Nat × List Char
  | [] => (acc, [])
  | c :: rest => if isDigitC c then parseNatAux (acc * 10 + digitVal c) rest else (acc, c :: rest)

/-- Generic decimal-number parsing: at least one digit, greedily consumed. -/
def parseNat (cs : List Char) : Option (Nat × List Char) :=
  match cs with
  | [] => none
  | c :: rest => if isDigitC c then some (parseNatAux (digitVal c) rest) else none

/-- True when the input does not continue with a digit. -/
def headNotDigit (cs : List Char) : Bool :=
  match cs with
  | [] => true
  | c :: _ => !(isDigitC c)

/-- Consume an expected literal prefix. -/
def dropLit (lit cs : List Char) : Option (List Char) :=
  if startsWithL lit cs then some (cs.drop lit.length) else none

/-- Generic parsing of one serialized cue object. -/
def parseCue (cs : List Char) : Option (Cue × List Char) :=
  (dropLit litText cs).bind (fun r1 =>
    (parseStringJ r1).bind (fun p =>
      (dropLit litStart p.2).bind (fun r3 =>
        (parseNat r3).bind (fun q =>
          (dropLit litDuration q.2).bind (fun r5 =>
            (parseNat r5).bind (fun w =>
              match w.2 with
              | [] => none
              | e :: r7 =>
                if e = '\x7d' then some (⟨String.mk p.1, q.1, w.1⟩, r7) else none))))))

/-- Generic parsing of the remainder of a serialized cue array after one
cue: the closing bracket, or a separator and a further cue (fuel-driven). -/
def parseCuesTail (fuel : Nat) (cs : List Char) : Option (List Cue × List Char) :=
  match fuel with
  | 0 => none
  | f + 1 =>
    match cs with
    | [] => none
    | c :: rest =>
      if c = ']' then some ([], rest)
      else if c = ',' then
        match rest with
        | [] => none
        | d :: rest2 =>
          if d = ' ' then
            match parseCue rest2 with
            | none => none
            | some (cue, r) =>
              match parseCuesTail f r with
              | none => none
              | some (cs2, r2) => some (cue :: cs2, r2)
          else none
      else none

/-- Generic structured-data parsing of a whole serialized cue array,
requiring the input to be consumed completely. -/
def parseCuesL (cs : List Char) : Option (List Cue) :=
  match cs with
  | [] => none
  | c :: rest =>
    if c = '[' then
      if rest = [']'] then some []
      else
        match parseCue rest with
        | none => none
        | some (cue, r) =>
          match parseCuesTail (r.length + 1) r with
          | none => none
          | some (cs2, r2) => if r2 = [] then some (cue :: cs2) else none
    else none

/-- Generic structured-data parsing of a serialized cue array given as a
string. -/
def parseCues (s : String) : Option (List Cue) :=
  parseCuesL s.data

/-- The accumulator step of decimal parsing. -/
def foldDigits (a : Nat) (c : Char) : Nat := a * 10 + digitVal c

theorem reSearch_leftmost (m : List Char → Option (List Char)) :
    ∀ (cs : List Char) (i : Nat) (t : List Char),
      m (cs.drop i) = some t → (∀ j, j < i → m (cs.drop j) = none) →
      reSearch m cs = some t := by
  intro cs
  induction cs with
  | nil =>
    intro i t h _
    simp only [List.drop_nil] at h
    simpa [reSearch] using h
  | cons c rest ih =>
    intro i t h hj
    cases i with
    | zero =>
      simp only [List.drop] at h
      simp [reSearch, h]
    | succ i =>
      have h0 := hj 0 (Nat.succ_pos _)
      simp only [List.drop] at h h0
      simp only [reSearch, h0]
      exact ih i t h (fun j hji => hj (j + 1) (Nat.succ_lt_succ hji))

theorem reSearch_none_of_all (m : List Char → Option (List Char)) :
    ∀ (cs : List Char), (∀ i, m (cs.drop i) = none) → reSearch m cs = none := by
  intro cs
  induction cs with
  | nil =>
    intro h
    simpa [reSearch] using h 0
  | cons c rest ih =>
    intro h
    have h0 := h 0
    simp only [List.drop] at h0
    simp only [reSearch, h0]
    exact ih (fun i => h (i + 1))

theorem exists_of_reSearch_some (m : List Char → Option (List Char)) :
    ∀ (cs : List Char) (t : List Char), reSearch m cs = some t →
      ∃ i, m (cs.drop i) = some t := by
  intro cs
  induction cs with
  | nil =>
    intro t h
    exact ⟨0, by simpa [reSearch] using h⟩
  | cons c rest ih =>
    intro t h
    simp only [reSearch] at h
    cases hm : m (c :: rest) with
    | some t2 =>
      rw [hm] at h
      exact ⟨0, by simpa using hm.trans (by simpa using h)⟩
    | none =>
      rw [hm] at h
      obtain ⟨i, hi⟩ := ih t h
      exact ⟨i + 1, by simpa using hi⟩

theorem all_none_of_reSearch_none (m : List Char → Option (List Char)) :
    ∀ (cs : List Char), reSearch m cs = none → ∀ i, m (cs.drop i) = none := by
  intro cs
  induction cs with
  | nil =>
    intro h i
    simp only [List.drop_nil]
    simpa [reSearch] using h
  | cons c rest ih =>
    intro h i
    simp only [reSearch] at h
    cases hm : m (c :: rest) with
    | some t2 => rw [hm] at h; exact absurd h (by simp)
    | none =>
      rw [hm] at h
      cases i with
      | zero => simpa using hm
      | succ i => simpa using ih h i

/-- C5: the filename builder removes every character of `\/*?:"<>|` from
title and identifier independently, preserves character data containing no
such character, composes the name as `<title> - <id>.<ext>`, and in
particular maps title `My:Video?`, id `abc12345678`, extension `txt` to
`MyVideo - abc12345678.txt`. -/
theorem C5_filename_sanitization :
    (∀ (s : String) (c : Char), c ∈ (sanitize s).data → badChar c = false) ∧
    (∀ s : String, (∀ c ∈ s.data, badChar c = false) → sanitize s = s) ∧
    (∀ title vid ext : String,
      build_filename title vid ext = sanitize title ++ " - " ++ sanitize vid ++ "." ++ ext) ∧
    build_filename ("My:Video?") ("abc12345678") ("txt") = "MyVideo - abc12345678.txt" := by
  refine ⟨?_, ?_, fun _ _ _ => rfl, by decide⟩
  · intro s c hc
    have hc2 : c ∈ s.data.filter (fun c => !(badChar c)) := hc
    have := List.of_mem_filter hc2
    simpa using this
  · intro s h
    have hs : s.data.filter (fun c => !(badChar c)) = s.data :=
      List.filter_eq_self.mpr (fun c hc => by simp [h c hc])
    show String.mk (s.data.filter (fun c => !(badChar c))) = s
    rw [hs]

/-- Witness for C5: a string free of forbidden characters is preserved. -/
theorem C5_witness : sanitize ("abc") = "abc" :=
  C5_filename_sanitization.2.1 ("abc") (by decide)

/-- C7: for a URL on which neither regex of `extract_video_id` matches
anywhere, `extract_video_id` returns `none` and `download_transcript`
returns the absence signal with an empty collaborator-call trace. -/
theorem C7_no_id_no_network (url outputDir lang fmt : String) (c : Collab)
    (h1 : reSearch matchAt1 url.data = none) (h2 : reSearch matchAt2 url.data = none) :
    extract_video_id url = none ∧
    download_transcript url outputDir lang fmt c = (Except.ok none, []) := by
  have he : extract_video_id url = none := by simp [extract_video_id, h1, h2]
  exact ⟨he, by simp [download_transcript, download_transcript_body, he]⟩

/-- Witness for C7 at the concrete URL `hello`. -/
theorem C7_witness :
    extract_video_id ("hello") = none ∧
    download_transcript ("hello") ("out") ("en") ("json")
      ⟨Except.ok none, Except.ok [], true⟩ = (Except.ok none, []) :=
  C7_no_id_no_network ("hello") ("out") ("en") ("json")
    ⟨Except.ok none, Except.ok [], true⟩ (by decide) (by decide)

/-- C10: format selection depends only on the lowercasing of the selector
(hence is case-insensitive), exactly the selectors whose lowercasing lies
outside the set json, text, srt are rejected, and the usual case variants
select the same formatter and extension as the lowercase spelling. -/
theorem C10_format_case_insensitive :
    (∀ s t : String, pyLower s = pyLower t → formatterFor s = formatterFor t) ∧
    (∀ s : String, formatterFor s = none ↔
      (pyLower s ≠ "json" ∧ pyLower s ≠ "text" ∧ pyLower s ≠ "srt")) ∧
    formatterFor ("JSON") = formatterFor ("json") ∧
    formatterFor ("Text") = formatterFor ("text") ∧
    formatterFor ("SRT") = formatterFor ("srt") := by
  refine ⟨?_, ?_, by decide, by decide, by decide⟩
  · intro s t h
    unfold formatterFor
    rw [h]
  · intro s
    unfold formatterFor
    split_ifs with h1 h2 h3 <;> simp_all

/-- Witness for C10: a mixed-case selector is treated as its lowercase form. -/
theorem C10_witness : formatterFor ("Srt") = formatterFor ("srt") :=
  C10_format_case_insensitive.1 ("Srt") ("srt") (by decide)

/-- C1 counterexample: with the unsupported format `vtt` and a well-formed
URL, `download_transcript` does return the absence signal, but only after
both the title-lookup and the transcript collaborator have been invoked, so
the call-count of the transcript collaborator is not zero as the claim
requires. -/
theorem C1_counterexample :
    formatterFor ("vtt") = none ∧
    download_transcript ("https://www.youtube.com/watch?v=dQw4w9WgXcQ") ("out") ("en") ("vtt")
      ⟨Except.ok (some ("Title")), Except.ok [⟨"hi", 0, 1⟩], true⟩ =
      (Except.ok none, [Ev.titleCall, Ev.transcriptCall]) ∧
    Ev.transcriptCall ∈ [Ev.titleCall, Ev.transcriptCall] := by
  exact ⟨by decide, rfl, by decide⟩

/-- C1 amended: for every call to `download_transcript` with an
output format outside the supported set and a URL from which an identifier
is extracted, the call returns the absence signal, but only after both the
title-lookup collaborator and the transcript collaborator have been invoked
once: the format check happens after retrieval, not before network
activity. -/
theorem C1_amended (url outputDir lang fmt : String) (c : Collab) (vid : String)
    (hid : extract_video_id url = some vid) (hfmt : formatterFor fmt = none) :
    download_transcript url outputDir lang fmt c =
      (Except.ok none, [Ev.titleCall, Ev.transcriptCall]) := by
  obtain ⟨tr, trr, w⟩ := c
  cases trr <;> simp [download_transcript, download_transcript_body, hid, hfmt]

/-- Witness for C1: the amended statement at a concrete URL and format. -/
theorem C1_amended_witness :
    download_transcript ("https://youtu.be/abcdefghijk") ("o") ("en") ("vtt")
      ⟨Except.ok none, Except.error TranscriptErr.disabled, false⟩ =
      (Except.ok none, [Ev.titleCall, Ev.transcriptCall]) :=
  C1_amended ("https://youtu.be/abcdefghijk") ("o") ("en") ("vtt")
    ⟨Except.ok none, Except.error TranscriptErr.disabled, false⟩ "abcdefghijk"
    (by decide) (by decide)

/-- C4: when the title lookup raises or yields no title, the title used
downstream is the identifier itself, and provided transcript retrieval,
format selection and the file write succeed, `download_transcript` still
returns the written path, whose filename is built from the identifier in
both components. -/
theorem C4_title_fallback (url outputDir lang fmt : String) (c : Collab) (vid : String)
    (hid : extract_video_id url = some vid)
    (hfail : (∃ e, c.titleResult = Except.error e) ∨ c.titleResult = Except.ok none) :
    resolvedTitle vid c.titleResult = vid ∧
    ∀ (ts : List Cue) (kind : FormatKind) (ext : String),
      c.transcriptResult = Except.ok ts → formatterFor fmt = some (kind, ext) →
      c.writeOk = true →
      (download_transcript url outputDir lang fmt c).1 =
        Except.ok (some (pathJoin outputDir (build_filename vid vid ext))) := by
  have htitle : resolvedTitle vid c.titleResult = vid := by
    rcases hfail with ⟨e, he⟩ | he <;> simp [resolvedTitle, he]
  refine ⟨htitle, ?_⟩
  intro ts kind ext htr hfmt hw
  simp [download_transcript, download_transcript_body, hid, htr, hfmt, hw, htitle]

/-- Witness for C4: a failing title lookup still produces a written path
named by the identifier twice. -/
theorem C4_witness :
    (download_transcript ("https://youtu.be/abcdefghijk") ("out") ("en") ("json")
      ⟨Except.ok none, Except.ok [⟨"hi", 0, 1⟩], true⟩).1 =
      Except.ok (some ("out/abcdefghijk - abcdefghijk.json")) := by
  have h := C4_title_fallback ("https://youtu.be/abcdefghijk") ("out") ("en") ("json")
    ⟨Except.ok none, Except.ok [⟨"hi", 0, 1⟩], true⟩ "abcdefghijk" (by decide) (Or.inr rfl)
  have h2 := h.2 [⟨"hi", 0, 1⟩] FormatKind.json ("json") rfl (by decide) rfl
  rw [h2]
  rfl

/-- C6 counterexample: on a title element whose content carries the platform
suffix also in the middle, the code removes every occurrence, not only the
trailing one, so the returned title differs from the suffix-only-stripped
content the claim describes. -/
theorem C6_counterexample :
    reSearch matchTitleAt (("<title>A - YouTube B - YouTube</title>").data) =
      some (("A - YouTube B - YouTube").data) ∧
    title_from_html ("<title>A - YouTube B - YouTube</title>") = some ("A B") ∧
    String.mk (spec_title_of_content (("A - YouTube B - YouTube").data)) = "A - YouTube B" ∧
    ("A B" : String) ≠ "A - YouTube B" := by
  exact ⟨by decide, by decide, by decide, by decide⟩

/-- C6 amended: whenever the title regex finds a title element, the returned
title is the captured content with every occurrence of ` - YouTube` removed
(anywhere, not only as a trailing suffix) and surrounding whitespace
stripped. -/
theorem C6_amended (html : String) (content : List Char)
    (h : reSearch matchTitleAt html.data = some content) :
    title_from_html html = some (String.mk (pyStrip (replaceYT content))) := by
  simp [title_from_html, h]

/-- Witness for C6: the amended statement at a concrete response body. -/
theorem C6_amended_witness :
    title_from_html ("<title> Hi - YouTube</title>") = some ("Hi") := by
  have h := C6_amended ("<title> Hi - YouTube</title>") ((" Hi - YouTube").data) (by decide)
  rw [h]
  rfl

/-- C3: `download_transcript` never lets an exception escape: for all inputs
and collaborator behaviors its outward result is an `Except.ok` value (path
or absence signal), and consequently the batch loop of `main` processes
every URL, returning one result per URL with no abort. -/
theorem C3_no_raise_and_batch :
    (∀ (url outputDir lang fmt : String) (c : Collab),
      ∃ r, (download_transcript url outputDir lang fmt c).1 = Except.ok r) ∧
    (∀ (jobs : List (String × Collab)) (outputDir lang fmt : String),
      processURLs jobs outputDir lang fmt =
        Except.ok (jobs.map (fun j => dtResult j.1 outputDir lang fmt j.2))) := by
  have hok : ∀ (url outputDir lang fmt : String) (c : Collab),
      (download_transcript url outputDir lang fmt c).1 =
        Except.ok (dtResult url outputDir lang fmt c) := by
    intro url od lg f c
    cases h : (download_transcript_body url od lg f c).1 with
    | error e => simp [download_transcript, dtResult, h]
    | ok v => simp [download_transcript, dtResult, h]
  constructor
  · intro url od lg f c
    exact ⟨_, hok url od lg f c⟩
  · intro jobs od lg f
    induction jobs with
    | nil => rfl
    | cons j rest ih =>
      obtain ⟨u, c⟩ := j
      simp [processURLs, hok u od lg f c, ih]

theorem startsWithL_append (p q : List Char) :
    ∀ cs : List Char, startsWithL (p ++ q) cs = true → startsWithL q (cs.drop p.length) = true := by
  induction p with
  | nil => intro cs h; simpa using h
  | cons a p ih =>
    intro cs h
    cases cs with
    | nil => simp [startsWithL] at h
    | cons c cs2 =>
      simp only [List.cons_append, startsWithL, Bool.and_eq_true] at h
      simpa using ih cs2 h.2

theorem startsWithL_cons_of_single (a : Char) (cs : List Char)
    (h : startsWithL [a] cs = true) : ∃ rest, cs = a :: rest := by
  cases cs with
  | nil => simp [startsWithL] at h
  | cons c cs2 =>
    simp only [startsWithL, Bool.and_eq_true, beq_iff_eq] at h
    exact ⟨cs2, by rw [h.1]⟩

theorem matchAt2_to_matchAt1 (cs : List Char) (t : List Char)
    (h : matchAt2 cs = some t) : matchAt1 (cs.drop 8) = some t := by
  unfold matchAt2 at h
  by_cases hs : startsWithL (("youtu.be/").data) cs = true
  · rw [if_pos hs] at h
    have hs2 : startsWithL ((("youtu.be").data) ++ ['/']) cs = true := hs
    have h8 : startsWithL ['/'] (cs.drop 8) = true :=
      startsWithL_append (("youtu.be").data) ['/'] cs hs2
    obtain ⟨rest, hrest⟩ := startsWithL_cons_of_single '/' (cs.drop 8) h8
    have h9 : cs.drop 9 = rest := by
      have hd : List.drop 1 (List.drop 8 cs) = List.drop 9 cs := List.drop_drop 1 8 cs
      rw [hrest] at hd
      simpa using hd.symm
    rw [hrest]
    have hv : startsWithL ['v', '='] ('/' :: rest) = false := rfl
    have hsl : startsWithL ['/'] ('/' :: rest) = true := rfl
    unfold matchAt1
    rw [hv, hsl]
    simpa using h9 ▸ h
  · rw [if_neg hs] at h
    exact absurd h (by simp)

/-- C9: the short-link fallback regex is redundant: `extract_video_id`
agrees with the variant that consults only the first regex, because any
match of `youtu.be/<token>` contains a path-separator match of the first
regex eight characters later. -/
theorem C9_short_link_redundant (url : String) :
    extract_video_id url = extract_video_id_first_only url := by
  unfold extract_video_id extract_video_id_first_only
  cases h1 : reSearch matchAt1 url.data with
  | some t => rfl
  | none =>
    have h2 : reSearch matchAt2 url.data = none := by
      cases h2 : reSearch matchAt2 url.data with
      | none => rfl
      | some t =>
        obtain ⟨i, hi⟩ := exists_of_reSearch_some matchAt2 url.data t h2
        have hm1 : matchAt1 ((url.data.drop i).drop 8) = some t := matchAt2_to_matchAt1 _ t hi
        have hm1d : matchAt1 (url.data.drop (i + 8)) = some t := by
          rw [← List.drop_drop]
          exact hm1
        have hall := all_none_of_reSearch_none matchAt1 url.data h1 (i + 8)
        rw [hall] at hm1d
        exact absurd hm1d (by simp)
    rw [h2]

/-- Witness for C9 at a concrete short-link URL. -/
theorem C9_witness :
    extract_video_id ("https://youtu.be/dQw4w9WgXcQ") =
      extract_video_id_first_only ("https://youtu.be/dQw4w9WgXcQ") :=
  C9_short_link_redundant ("https://youtu.be/dQw4w9WgXcQ")

/-- C2 counterexample: the URL `x/aaaaaaaaaaa?v=bbbbbbbbbbb` contains the
11-character identifier-alphabet token `bbbbbbbbbbb` immediately preceded by
`v=`, yet `extract_video_id` returns the earlier token `aaaaaaaaaaa`, so the
universal clause of the claim fails. -/
theorem C2_counterexample :
    extract_video_id ("x/aaaaaaaaaaa?v=bbbbbbbbbbb") = some ("aaaaaaaaaaa") ∧
    ("x/aaaaaaaaaaa?v=bbbbbbbbbbb").data =
      ("x/aaaaaaaaaaa?").data ++ 'v' :: '=' :: ("bbbbbbbbbbb").data ∧
    ("bbbbbbbbbbb").data.length = 11 ∧ ("bbbbbbbbbbb").data.all idChar = true ∧
    ("aaaaaaaaaaa" : String) ≠ "bbbbbbbbbbb" := by
  exact ⟨by decide, by decide, by decide, by decide, by decide⟩

/-- C2 amended: `extract_video_id` tries the `v=`-or-path-separator regex
first and the short-link regex second and returns the captured token of the
leftmost position where a regex matches — so a URL containing an
11-character token preceded by `v=` or `/` yields that token only when it is
the leftmost such match — and returns `none` when neither regex matches at
any position. -/
theorem C2_amended :
    (∀ (url : String) (i : Nat) (t : List Char),
      matchAt1 (url.data.drop i) = some t →
      (∀ j, j < i → matchAt1 (url.data.drop j) = none) →
      extract_video_id url = some (String.mk t)) ∧
    (∀ url : String,
      (∀ i, matchAt1 (url.data.drop i) = none) →
      (∀ i, matchAt2 (url.data.drop i) = none) →
      extract_video_id url = none) := by
  constructor
  · intro url i t h hj
    have hs := reSearch_leftmost matchAt1 url.data i t h hj
    simp [extract_video_id, hs]
  · intro url h1 h2
    have hs1 := reSearch_none_of_all matchAt1 url.data h1
    have hs2 := reSearch_none_of_all matchAt2 url.data h2
    simp [extract_video_id, hs1, hs2]

/-- Witness for C2: the leftmost-match clause at a concrete URL whose match
is at position zero. -/
theorem C2_witness : extract_video_id ("v=abcdefghijk") = some ("abcdefghijk") :=
  C2_amended.1 ("v=abcdefghijk") 0 (("abcdefghijk").data) (by decide)
    (fun j hj => absurd hj (by omega))

theorem startsWithL_self_append (lit : List Char) : ∀ rest, startsWithL lit (lit ++ rest) = true := by
  induction lit with
  | nil => intro rest; rfl
  | cons a l ih => intro rest; simp [startsWithL, ih]

theorem dropLit_self (lit rest : List Char) : dropLit lit (lit ++ rest) = some rest := by
  simp [dropLit, startsWithL_self_append, List.drop_left]

theorem parseStringBody_escChar (c : Char) (tail : List Char) :
    parseStringBody (escChar c ++ tail) =
      match parseStringBody tail with
      | none => none
      | some (s, r) => some (c :: s, r) := by
  by_cases h1 : c = '"'
  · subst h1; rfl
  by_cases h2 : c = '\\'
  · subst h2; rfl
  by_cases h3 : c = '\n'
  · subst h3; rfl
  by_cases h4 : c = '\t'
  · subst h4; rfl
  by_cases h5 : c = '\r'
  · subst h5; rfl
  · have he : escChar c = [c] := by simp [escChar, h1, h2, h3, h4, h5]
    rw [he]
    cases tail with
    | nil =>
      show parseStringBody [c] = none
      simp [parseStringBody, h1]
    | cons d rest =>
      show parseStringBody (c :: d :: rest) = _
      simp only [parseStringBody, if_neg h1, if_neg h2]

theorem parseStringBody_escape (s : List Char) :
    ∀ tail, parseStringBody (escapeStr s ++ '"' :: tail) = some (s, tail) := by
  induction s with
  | nil =>
    intro tail
    cases tail with
    | nil => rfl
    | cons d rest => rfl
  | cons c s ih =>
    intro tail
    rw [escapeStr, List.append_assoc, parseStringBody_escChar, ih]

theorem parseStringJ_render (s tail : List Char) :
    parseStringJ (renderString s ++ tail) = some (s, tail) := by
  show parseStringJ ('"' :: ((escapeStr s ++ ['"']) ++ tail)) = some (s, tail)
  rw [List.append_assoc]
  simp [parseStringJ, parseStringBody_escape]

theorem digitVal_digitChar (n : Nat) (h : n < 10) : digitVal (digitChar n) = n := by
  interval_cases n <;> decide

theorem isDigitC_digitChar (n : Nat) (h : n < 10) : isDigitC (digitChar n) = true := by
  interval_cases n <;> decide

theorem natToDigitsAux_spec : ∀ (f n : Nat), n < f →
    natToDigitsAux f n ≠ [] ∧ (∀ c ∈ natToDigitsAux f n, isDigitC c = true) ∧
    List.foldl foldDigits 0 (natToDigitsAux f n) = n := by
  intro f
  induction f with
  | zero => intro n h; omega
  | succ f ih =>
    intro n h
    by_cases h10 : n < 10
    · refine ⟨by simp [natToDigitsAux, h10], ?_, ?_⟩
      · intro c hc
        simp only [natToDigitsAux, if_pos h10, List.mem_singleton] at hc
        rw [hc]
        exact isDigitC_digitChar n h10
      · simp [natToDigitsAux, h10, foldDigits, digitVal_digitChar n h10]
    · have hn0 : 0 < n := by omega
      have hlt : n / 10 < n := Nat.div_lt_self hn0 (by omega)
      have hdiv : n / 10 < f := by omega
      obtain ⟨hne, hdig, hfold⟩ := ih (n / 10) hdiv
      have hmod : n % 10 < 10 := Nat.mod_lt n (by omega)
      simp only [natToDigitsAux, if_neg h10]
      refine ⟨by simp, ?_, ?_⟩
      · intro c hc
        rcases List.mem_append.mp hc with hc | hc
        · exact hdig c hc
        · rw [List.mem_singleton] at hc
          rw [hc]
          exact isDigitC_digitChar _ hmod
      · rw [List.foldl_append, hfold]
        simp only [List.foldl_cons, List.foldl_nil, foldDigits, digitVal_digitChar _ hmod]
        omega

theorem natToDigits_spec (n : Nat) :
    natToDigits n ≠ [] ∧ (∀ c ∈ natToDigits n, isDigitC c = true) ∧
    List.foldl foldDigits 0 (natToDigits n) = n :=
  natToDigitsAux_spec (n + 1) n (by omega)

theorem parseNatAux_append : ∀ (ds : List Char), (∀ c ∈ ds, isDigitC c = true) →
    ∀ (acc : Nat) (rest : List Char), headNotDigit rest = true →
    parseNatAux acc (ds ++ rest) = (List.foldl foldDigits acc ds, rest) := by
  intro ds
  induction ds with
  | nil =>
    intro _ acc rest hrest
    cases rest with
    | nil => simp [parseNatAux]
    | cons c r =>
      have hc : isDigitC c = false := by simpa [headNotDigit] using hrest
      simp [parseNatAux, hc]
  | cons d ds ih =>
    intro hdig acc rest hrest
    have hd : isDigitC d = true := hdig d (by simp)
    rw [List.cons_append, parseNatAux, if_pos hd,
      ih (fun c hc => hdig c (by simp [hc])) _ rest hrest]
    rfl

theorem parseNat_render (n : Nat) (rest : List Char) (hrest : headNotDigit rest = true) :
    parseNat (natToDigits n ++ rest) = some (n, rest) := by
  obtain ⟨hne, hdig, hfold⟩ := natToDigits_spec n
  cases hD : natToDigits n with
  | nil => exact absurd hD hne
  | cons d ds =>
    rw [hD] at hdig hfold
    have hd : isDigitC d = true := hdig d (by simp)
    rw [List.cons_append, parseNat, if_pos hd,
      parseNatAux_append ds (fun c hc => hdig c (by simp [hc])) _ rest hrest]
    simp only [List.foldl_cons] at hfold
    have hstep : foldDigits 0 d = digitVal d := by simp [foldDigits]
    rw [hstep] at hfold
    rw [hfold]

theorem parseCue_render (c : Cue) (rest : List Char) :
    parseCue (renderCue c ++ rest) = some (c, rest) := by
  have h1 : renderCue c ++ rest =
      litText ++ (renderString c.text.data ++ (litStart ++ (natToDigits c.start ++
        (litDuration ++ (natToDigits c.duration ++ ('\x7d' :: rest)))))) := by
    simp [renderCue, List.append_assoc]
  rw [h1]
  rw [parseCue, dropLit_self, Option.some_bind, parseStringJ_render, Option.some_bind,
    dropLit_self, Option.some_bind, parseNat_render _ _ (by rfl), Option.some_bind,
    dropLit_self, Option.some_bind, parseNat_render _ _ (by rfl), Option.some_bind]
  simp

theorem renderCuesTail_length (cs : List Cue) : cs.length ≤ (renderCuesTail cs).length := by
  induction cs with
  | nil => simp [renderCuesTail]
  | cons c rest ih =>
    simp only [renderCuesTail, List.length_cons, List.length_append]
    omega

theorem parseCuesTail_render (cs : List Cue) : ∀ fuel, cs.length < fuel →
    parseCuesTail fuel (renderCuesTail cs) = some (cs, []) := by
  induction cs with
  | nil =>
    intro fuel h
    cases fuel with
    | zero => omega
    | succ f => simp [renderCuesTail, parseCuesTail]
  | cons c rest ih =>
    intro fuel h
    cases fuel with
    | zero => omega
    | succ f =>
      have h2 : rest.length < f := by
        simp only [List.length_cons] at h
        omega
      simp [renderCuesTail, parseCuesTail, parseCue_render, ih f h2]

/-- C8: formatting a cue sequence with the structured (`json`) formatter and
parsing the result with the generic structured-data parser reproduces the
original cue list exactly — same text, start and duration for every cue, in
the same order. -/
theorem C8_json_round_trip (cues : List Cue) :
    parseCues (JSONFormatter_format cues) = some cues := by
  show parseCuesL (JSONFormatter_format cues).data = some cues
  have hdata : (JSONFormatter_format cues).data = renderCues cues := rfl
  rw [hdata]
  cases cues with
  | nil => rfl
  | cons c rest =>
    show parseCuesL ('[' :: (renderCue c ++ renderCuesTail rest)) = some (c :: rest)
    have hne : renderCue c ++ renderCuesTail rest ≠ [']'] := by
      intro hcon
      have h0 : (renderCue c ++ renderCuesTail rest).head? = some '\x7b' := rfl
      rw [hcon] at h0
      simp at h0
    have hfuel : rest.length < (renderCuesTail rest).length + 1 := by
      have := renderCuesTail_length rest
      omega
    simp [parseCuesL, hne, parseCue_render, parseCuesTail_render rest _ hfuel]
